import Mathlib

/-!
Shallow embedding of the batch-normalization CPU kernels, the impl-index
backend selection, and the renorm meta checks of
aten/src/ATen/native/Normalization.cpp.

Floating-point scalars are modelled as exact rationals.  `std::sqrt` is an
external library routine and is threaded through as an explicit function
parameter `sqrt : ℚ → ℚ`.  A tensor is flattened per channel (logical axis 1):
an input is a list of channels, each channel the list of its elements in the
serial reduction order the kernels use.  Optional (possibly undefined) tensors
are `Option`s.  External accelerated backends (cuDNN / MIOpen) are opaque
function parameters, exactly as they are opaque calls in the source.
-/

namespace ATenNorm

/-- `InvStd::operator()` : invstd is 0 unless `var != 0 || eps != 0`, in which
case it is `1 / sqrt(var + eps)`. -/
def InvStd (sqrt : ℚ → ℚ) (var eps : ℚ) : ℚ :=
  if var ≠ 0 ∨ eps ≠ 0 then 1 / sqrt (var + eps) else 0

/-- `Var::operator()` : the identity variance transform (ignores eps). -/
def Var (var _eps : ℚ) : ℚ := var

/-- Loop body of `batch_norm_cpu_inference_collect_linear_and_constant_terms`
for one channel: `inv_var = 1/sqrt(var + eps)`, `weight_v` defaults to 1,
`bias_v` defaults to 0, and the result is `(alpha, beta)` with
`alpha = inv_var * weight_v` and `beta = bias_v - mean * inv_var * weight_v`. -/
def batch_norm_cpu_inference_collect_linear_and_constant_terms
    (sqrt : ℚ → ℚ) (weight bias : Option ℚ) (mean var eps : ℚ) : ℚ × ℚ :=
  let inv_var := 1 / sqrt (var + eps)
  let weight_v := weight.getD 1
  let bias_v := bias.getD 0
  (inv_var * weight_v, bias_v - mean * inv_var * weight_v)

/-- `batch_norm_cpu_inference_channels_last`: rows are the (n, i) positions in
memory order, the inner dimension is the channel axis; every output element is
`input * alpha(c) + beta(c)` with the fused coefficients collected once. -/
def batch_norm_cpu_inference_channels_last (sqrt : ℚ → ℚ)
    (input : List (List ℚ)) (weight bias : Option (List ℚ))
    (mean variance : List ℚ) (eps : ℚ) : List (List ℚ) :=
  let n_channel := mean.length
  let terms := (List.range n_channel).map fun c =>
    batch_norm_cpu_inference_collect_linear_and_constant_terms sqrt
      (weight.map fun w => w.getD c 0) (bias.map fun b => b.getD c 0)
      (mean.getD c 0) (variance.getD c 0) eps
  input.map fun row => (List.range n_channel).map fun c =>
    row.getD c 0 * (terms.getD c (0, 0)).1 + (terms.getD c (0, 0)).2

/-- Loop body of `batch_norm_cpu_update_stats_template` for one channel `f`:
`mean = save_mean[f]` (a full reduction divided by the per-channel count `n`),
`var_sum = Σ (i - mean)²` accumulated serially, the transformed statistic is
`VarTransform(var_sum / n, eps)`, and the running statistics, when defined, are
blended in place with the momentum (the running variance with the unbiased
`var_sum / (n - 1)`).  Returns
`(save_mean, save_var_transform, running_mean', running_var')`. -/
def batch_norm_cpu_update_stats_channel (varTransform : ℚ → ℚ → ℚ)
    (momentum eps n : ℚ) (chan : List ℚ) (running_mean running_var : Option ℚ) :
    ℚ × ℚ × Option ℚ × Option ℚ :=
  let mean := chan.sum / n
  let var_sum := (chan.map fun i => (i - mean) * (i - mean)).sum
  let save_var := varTransform (var_sum / n) eps
  let running_mean' := running_mean.map fun r =>
    momentum * mean + (1 - momentum) * r
  let running_var' := running_var.map fun r =>
    momentum * (var_sum / (n - 1)) + (1 - momentum) * r
  (mean, save_var, running_mean', running_var')

/-- `batch_norm_cpu_update_stats_template`: `n_input = input.size(1)` channels,
`n = numel / n_input` elements per channel, the per-channel body applied to
every channel (the parallel loop writes disjoint per-channel slots, so it is a
map over the channel range).  Returns
`((save_mean, save_var_transform), (running_mean', running_var'))`. -/
def batch_norm_cpu_update_stats (varTransform : ℚ → ℚ → ℚ)
    (input : List (List ℚ)) (running_mean running_var : Option (List ℚ))
    (momentum eps : ℚ) :
    (List ℚ × List ℚ) × (Option (List ℚ) × Option (List ℚ)) :=
  let n_input := input.length
  let n : ℚ := (((input.map List.length).sum / n_input : ℕ) : ℚ)
  let per := (List.range n_input).map fun f =>
    batch_norm_cpu_update_stats_channel varTransform momentum eps n
      (input.getD f []) (running_mean.map fun l => l.getD f 0)
      (running_var.map fun l => l.getD f 0)
  ((per.map fun r => r.1, per.map fun r => r.2.1),
   (running_mean.map fun _ => per.map fun r => r.2.2.1.getD 0,
    running_var.map fun _ => per.map fun r => r.2.2.2.getD 0))

/-- Loop body of `batch_norm_backward_cpu_template` for one channel `f`:
`w` defaults to 1; `mean`/`invstd` come from the saved batch statistics in
training mode and from the running statistics (with
`invstd = 1/sqrt(running_var + eps)`) in evaluation mode;
`sum = Σ grad_out` (reduced before the loop) and `dotp = Σ (i - mean) * go`;
the masked outputs are the training two-pass input gradient
(`gi = (i - mean) * k` then `(go - grad_mean - gi) * invstd * w`), the
evaluation input gradient `go * invstd * w`, `grad_weight = dotp * invstd` and
`grad_bias = sum`. -/
def batch_norm_backward_channel (sqrt : ℚ → ℚ)
    (chan_in chan_grad_out : List ℚ) (weight : Option ℚ)
    (running_mean running_var save_mean save_invstd : ℚ)
    (train : Bool) (eps n : ℚ) (grad_input_mask : Bool × Bool × Bool) :
    Option (List ℚ) × Option ℚ × Option ℚ :=
  let w := weight.getD 1
  let mean := if train then save_mean else running_mean
  let invstd := if train then save_invstd else 1 / sqrt (running_var + eps)
  let sum := chan_grad_out.sum
  let dotp := (List.zipWith (fun i go => (i - mean) * go)
    chan_in chan_grad_out).sum
  let grad_input :=
    if grad_input_mask.1 then
      some (if train then
        let k := dotp * invstd * invstd / n
        let gi := chan_in.map fun i => (i - mean) * k
        let grad_mean := sum / n
        List.zipWith (fun gi_v go => (go - grad_mean - gi_v) * invstd * w)
          gi chan_grad_out
      else chan_grad_out.map fun go => go * invstd * w)
    else none
  let grad_weight := if grad_input_mask.2.1 then some (dotp * invstd) else none
  let grad_bias := if grad_input_mask.2.2 then some sum else none
  (grad_input, grad_weight, grad_bias)

/-- `batch_norm_backward_cpu_template`: `n_input = input.size(1)` channels,
`n = numel / n_input`, `sum` reduced over all non-channel axes before the loop
and the per-channel body applied to every channel (the parallel loop writes
disjoint per-channel slots).  Undefined optional statistics read as 0 in the
branch that does not use them, as the conditional accessors do. -/
def batch_norm_backward_cpu (sqrt : ℚ → ℚ)
    (grad_out input : List (List ℚ)) (weight : Option (List ℚ))
    (running_mean running_var save_mean save_invstd : Option (List ℚ))
    (train : Bool) (eps : ℚ) (grad_input_mask : Bool × Bool × Bool) :
    Option (List (List ℚ)) × Option (List ℚ) × Option (List ℚ) :=
  let n_input := input.length
  let n : ℚ := (((input.map List.length).sum / n_input : ℕ) : ℚ)
  let per := (List.range n_input).map fun f =>
    batch_norm_backward_channel sqrt (input.getD f []) (grad_out.getD f [])
      (weight.map fun l => l.getD f 0)
      ((running_mean.getD []).getD f 0) ((running_var.getD []).getD f 0)
      ((save_mean.getD []).getD f 0) ((save_invstd.getD []).getD f 0)
      train eps n grad_input_mask
  (if grad_input_mask.1 then some (per.map fun r => r.1.getD []) else none,
   if grad_input_mask.2.1 then some (per.map fun r => r.2.1.getD 0) else none,
   if grad_input_mask.2.2 then some (per.map fun r => r.2.2.getD 0) else none)



/-- Generic broadcast path of `batch_norm_cpu_transform_input_template`
(kernel `((input - mean) * invstd) * weight + bias`), with per-channel
`mean`/`invstd` resolved from saved batch statistics in training mode and from
the running statistics (with `invstd = 1/sqrt(running_var + eps)`) in
evaluation mode; weight defaults to 1 and bias to 0.  The two evaluation fast
paths compute the same values through the fused coefficients (C5 identity), so
the generic kernel is the value-level semantics of the transform. -/
def batch_norm_cpu_transform_input (sqrt : ℚ → ℚ) (input : List (List ℚ))
    (weight bias : Option (List ℚ)) (save_mean save_invstd : List ℚ)
    (running_mean running_var : Option (List ℚ)) (train : Bool) (eps : ℚ) :
    List (List ℚ) :=
  (List.range input.length).map fun f =>
    let mean := if train then save_mean.getD f 0
      else (running_mean.getD []).getD f 0
    let invstd := if train then save_invstd.getD f 0
      else 1 / sqrt ((running_var.getD []).getD f 0 + eps)
    let w := (weight.map fun l => l.getD f 0).getD 1
    let b := (bias.map fun l => l.getD f 0).getD 0
    (input.getD f []).map fun x => ((x - mean) * invstd) * w + b

/-- `batch_norm_cpu`: evaluation mode transforms directly with the running
statistics (saved statistics stay empty); training mode first runs the
statistics update with the `InvStd` transform (mutating the running statistics
in place), then transforms with the freshly saved statistics.  The pair of
running statistics after the call is returned to make the in-place mutation
explicit. -/
def batch_norm_cpu (sqrt : ℚ → ℚ) (input : List (List ℚ))
    (weight bias running_mean running_var : Option (List ℚ))
    (train : Bool) (momentum eps : ℚ) :
    (List (List ℚ) × List ℚ × List ℚ) ×
      (Option (List ℚ) × Option (List ℚ)) :=
  if train then
    let u := batch_norm_cpu_update_stats (InvStd sqrt) input
      running_mean running_var momentum eps
    ((batch_norm_cpu_transform_input sqrt input weight bias u.1.1 u.1.2
        u.2.1 u.2.2 true eps, u.1.1, u.1.2), u.2)
  else
    ((batch_norm_cpu_transform_input sqrt input weight bias [] []
        running_mean running_var false eps, [], []),
     (running_mean, running_var))

/-- The failure cases of the `_batch_norm_impl_index` validation, carrying the
offending parameter and the expected/actual element counts that the
`TORCH_CHECK` message names. -/
inductive BNError where
  | runningMeanSize (expected actual : ℕ)
  | runningMeanMissing
  | runningVarSize (expected actual : ℕ)
  | runningVarMissing
  | weightSize (expected actual : ℕ)
  | biasSize (expected actual : ℕ)
deriving DecidableEq

/-- `running_mean` validation: a defined tensor must have `num_features`
elements; an undefined one is only allowed in training mode. -/
def check_running_mean (num_features : ℕ) (running_mean : Option (List ℚ))
    (training : Bool) : Option BNError :=
  match running_mean with
  | some t => if t.length = num_features then none
      else some (BNError.runningMeanSize num_features t.length)
  | none => if training then none else some BNError.runningMeanMissing

/-- `running_var` validation, symmetric to `check_running_mean`. -/
def check_running_var (num_features : ℕ) (running_var : Option (List ℚ))
    (training : Bool) : Option BNError :=
  match running_var with
  | some t => if t.length = num_features then none
      else some (BNError.runningVarSize num_features t.length)
  | none => if training then none else some BNError.runningVarMissing

/-- `weight` validation: a defined tensor must have `num_features` elements. -/
def check_weight (num_features : ℕ) (weight : Option (List ℚ)) :
    Option BNError :=
  match weight with
  | some t => if t.length = num_features then none
      else some (BNError.weightSize num_features t.length)
  | none => none

/-- `bias` validation: a defined tensor must have `num_features` elements. -/
def check_bias (num_features : ℕ) (bias : Option (List ℚ)) :
    Option BNError :=
  match bias with
  | some t => if t.length = num_features then none
      else some (BNError.biasSize num_features t.length)
  | none => none

/-- The validation block at the top of `_batch_norm_impl_index`, in source
order: running_mean, running_var, weight, bias; the first failing check
reports its error. -/
def batch_norm_validate (num_features : ℕ)
    (weight bias running_mean running_var : Option (List ℚ))
    (training : Bool) : Option BNError :=
  match check_running_mean num_features running_mean training with
  | some e => some e
  | none =>
    match check_running_var num_features running_var training with
    | some e => some e
    | none =>
      match check_weight num_features weight with
      | some e => some e
      | none => check_bias num_features bias

/-- An opaque accelerated forward backend (cuDNN / MIOpen), consumed at its
boundary: input, weight, bias, running statistics, training flag, momentum,
eps, returning (output, save_mean, save_var, reserve, updated running
statistics). -/
def AccelForward : Type :=
  List (List ℚ) → Option (List ℚ) → Option (List ℚ) → Option (List ℚ) →
    Option (List ℚ) → Bool → ℚ → ℚ →
    (List (List ℚ) × List ℚ × List ℚ × List ℚ ×
      (Option (List ℚ) × Option (List ℚ)))

/-- The five-tuple `_batch_norm_impl_index` returns: output, saved statistics,
reserve, and the backend index. -/
structure ImplIndexOut where
  output : List (List ℚ)
  save_mean : List ℚ
  save_var : List ℚ
  reserve : List ℚ
  impl_index : ℤ
deriving DecidableEq

/-- `_batch_norm_impl_index`: validation first (channel counts against
`input.sizes()[1]`, presence of running statistics in evaluation mode), then
the ordered strategy selection (cuDNN = 1, then MIOpen = 2, then the native
CPU path = 0); the capability predicates over device/dtype/rank/batch bounds
are abstracted into the `use_cudnn`/`use_miopen` flags.  The second component
is the pair of running statistics after the call; a validation failure
returns them unchanged. -/
def batch_norm_impl_index (sqrt : ℚ → ℚ)
    (cudnn_fwd miopen_fwd : AccelForward) (input : List (List ℚ))
    (weight bias running_mean running_var : Option (List ℚ))
    (training : Bool) (momentum eps : ℚ) (use_cudnn use_miopen : Bool) :
    Except BNError ImplIndexOut × (Option (List ℚ) × Option (List ℚ)) :=
  match batch_norm_validate input.length weight bias running_mean running_var
      training with
  | some e => (Except.error e, (running_mean, running_var))
  | none =>
    if use_cudnn then
      let r := cudnn_fwd input weight bias running_mean running_var training
        momentum eps
      (Except.ok ⟨r.1, r.2.1, r.2.2.1, r.2.2.2.1, 1⟩, r.2.2.2.2)
    else if use_miopen then
      let r := miopen_fwd input weight bias running_mean running_var training
        momentum eps
      (Except.ok ⟨r.1, r.2.1, r.2.2.1, [], 2⟩, r.2.2.2.2)
    else
      let r := batch_norm_cpu sqrt input weight bias running_mean running_var
        training momentum eps
      (Except.ok ⟨r.1.1, r.1.2.1, r.1.2.2, [], 0⟩, r.2)

/-- Which backward implementation a strategy tag routes to. -/
inductive BackwardKind where
  | native
  | cudnnBackward
  | miopenBackward
deriving DecidableEq

/-- The opaque `cudnn_batch_norm_backward` boundary: input, grad_output,
weight, running statistics, saved statistics, epsilon, reservedSpace. -/
def CudnnBackward : Type :=
  List (List ℚ) → List (List ℚ) → Option (List ℚ) → Option (List ℚ) →
    Option (List ℚ) → Option (List ℚ) → Option (List ℚ) → ℚ → List ℚ →
    (List (List ℚ) × List ℚ × List ℚ)

/-- The opaque `miopen_batch_norm_backward` boundary (no reserved space). -/
def MiopenBackward : Type :=
  List (List ℚ) → List (List ℚ) → Option (List ℚ) → Option (List ℚ) →
    Option (List ℚ) → Option (List ℚ) → Option (List ℚ) → ℚ →
    (List (List ℚ) × List ℚ × List ℚ)

/-- `_batch_norm_impl_index_backward`: tag 0 routes to the native backward
engine, tag 1 to the cuDNN backward, tag 2 to the MIOpen backward, and any
other tag hits `TORCH_INTERNAL_ASSERT(false)` (modelled as `none`).  The
result records which implementation ran together with its gradients. -/
def batch_norm_impl_index_backward (sqrt : ℚ → ℚ)
    (cudnn_bwd : CudnnBackward) (miopen_bwd : MiopenBackward)
    (impl_index : ℤ) (input grad_output : List (List ℚ))
    (weight running_mean running_var save_mean save_var_transform :
      Option (List ℚ))
    (train : Bool) (epsilon : ℚ) (output_mask : Bool × Bool × Bool)
    (reservedSpace : List ℚ) :
    Option (BackwardKind ×
      (Option (List (List ℚ)) × Option (List ℚ) × Option (List ℚ))) :=
  if impl_index = 0 then
    some (BackwardKind.native,
      batch_norm_backward_cpu sqrt grad_output input weight running_mean
        running_var save_mean save_var_transform train epsilon output_mask)
  else if impl_index = 1 then
    let r := cudnn_bwd input grad_output weight running_mean running_var
      save_mean save_var_transform epsilon reservedSpace
    some (BackwardKind.cudnnBackward, (some r.1, some r.2.1, some r.2.2))
  else if impl_index = 2 then
    let r := miopen_bwd input grad_output weight running_mean running_var
      save_mean save_var_transform epsilon
    some (BackwardKind.miopenBackward, (some r.1, some r.2.1, some r.2.2))
  else none

/-- A host scalar argument of `renorm`: its `isComplex` flag and the real
value seen through `toDouble`. -/
structure Scalar where
  isComplex : Bool
  val : ℚ
deriving DecidableEq

/-- `TORCH_META_FUNC(renorm)`: the checks in source order (p real, p > 0,
maxnorm real, maxnorm ≥ 0, rank > 1), then `set_output(self.sizes())`. -/
def renorm_meta (self_sizes : List ℕ) (p : Scalar) (dim : ℤ)
    (maxnorm : Scalar) : Except String (List ℕ) :=
  if p.isComplex then Except.error "renorm: p must be real-valued"
  else if ¬ (0 < p.val) then
    Except.error "renorm: non-positive-norm not supported"
  else if maxnorm.isComplex then
    Except.error "renorm: maxnorm must be real-valued"
  else if ¬ (0 ≤ maxnorm.val) then
    Except.error "renorm: expected maxnorm to be >= 0"
  else if ¬ (1 < self_sizes.length) then
    Except.error "renorm: input needs at least 2 dimensions"
  else Except.ok self_sizes

end ATenNorm

namespace ATenNorm

/-- C4: the inverse-std VarTransform produces exactly `1/sqrt(var + eps)`
(whenever the external square root satisfies `sqrt 0 = 0`, which makes the
`var != 0 || eps != 0` guard in the source transparent under total division),
and the identity policy used by the standalone statistics-update entry point
produces exactly `var`. -/
theorem invstd_and_var_policies (sqrt : ℚ → ℚ) (h0 : sqrt 0 = 0) (var eps : ℚ) :
    InvStd sqrt var eps = 1 / sqrt (var + eps) ∧ Var var eps = var := by
  constructor
  · unfold InvStd
    by_cases hv : var = 0
    · by_cases he : eps = 0
      · simp [hv, he, h0]
      · simp [hv, he]
    · simp [hv]
  · rfl

/-- Witness for C4 at `sqrt = id`, `var = 1`, `eps = 0`. -/
theorem invstd_and_var_policies_w :
    InvStd id 1 0 = 1 / id (1 + 0) ∧ Var 1 0 = 1 :=
  invstd_and_var_policies id rfl 1 0

/-- C5: the fused coefficients satisfy `alpha = invStd * weight` and
`beta = bias - mean * alpha` (weight defaulting to 1, bias to 0), and for every
input value `x * alpha + beta = (x - mean) * invStd * weight + bias` holds as
an exact algebraic identity. -/
theorem fused_coefficient_identity (sqrt : ℚ → ℚ) (weight bias : Option ℚ)
    (mean var eps x : ℚ) :
    (batch_norm_cpu_inference_collect_linear_and_constant_terms
        sqrt weight bias mean var eps).1
      = (1 / sqrt (var + eps)) * weight.getD 1 ∧
    (batch_norm_cpu_inference_collect_linear_and_constant_terms
        sqrt weight bias mean var eps).2
      = bias.getD 0 -
        mean * (batch_norm_cpu_inference_collect_linear_and_constant_terms
          sqrt weight bias mean var eps).1 ∧
    x * (batch_norm_cpu_inference_collect_linear_and_constant_terms
          sqrt weight bias mean var eps).1
      + (batch_norm_cpu_inference_collect_linear_and_constant_terms
          sqrt weight bias mean var eps).2
      = (x - mean) * (1 / sqrt (var + eps)) * weight.getD 1 + bias.getD 0 := by
  unfold batch_norm_cpu_inference_collect_linear_and_constant_terms
  refine ⟨rfl, by ring, by ring⟩

end ATenNorm

namespace ATenNorm

/-- C1: in a training-mode backward call with the input gradient selected, the
two-pass computation produces, for every element of every channel,
`((go - sum/n) - (i - mean) * (dotp * invstd * invstd / n)) * invstd * w`
with `mean`/`invstd` the saved batch statistics and `w` defaulting to 1. -/
theorem backward_train_grad_input (sqrt : ℚ → ℚ)
    (chan_in chan_grad_out : List ℚ) (weight : Option ℚ)
    (rm rv sm si eps n : ℚ) (b c : Bool) :
    (batch_norm_backward_channel sqrt chan_in chan_grad_out weight rm rv sm si
        true eps n (true, b, c)).1
      = some (List.zipWith (fun i go =>
          ((go - chan_grad_out.sum / n) -
            (i - sm) *
              ((List.zipWith (fun i go => (i - sm) * go)
                  chan_in chan_grad_out).sum * si * si / n)) * si *
            weight.getD 1)
          chan_in chan_grad_out) := by
  simp [batch_norm_backward_channel, List.zipWith_map_left]

/-- C6: in both training and evaluation modes, the selected weight gradient is
`dotp * invstd` and the selected bias gradient is `sum`, with `mean`/`invstd`
resolved from saved batch statistics (training) or running statistics
(evaluation); the formula is the same expression in either mode. -/
theorem backward_grad_weight_bias (sqrt : ℚ → ℚ)
    (chan_in chan_grad_out : List ℚ) (weight : Option ℚ)
    (rm rv sm si eps n : ℚ) (train b : Bool) :
    (batch_norm_backward_channel sqrt chan_in chan_grad_out weight rm rv sm si
        train eps n (b, true, true)).2.1
      = some ((List.zipWith
            (fun i go => (i - (if train then sm else rm)) * go)
            chan_in chan_grad_out).sum *
          (if train then si else 1 / sqrt (rv + eps))) ∧
    (batch_norm_backward_channel sqrt chan_in chan_grad_out weight rm rv sm si
        train eps n (b, true, true)).2.2
      = some chan_grad_out.sum := by
  constructor <;> simp [batch_norm_backward_channel]

/-- C2: the transformed statistic is fed the biased `var_sum / n`, the running
variance is blended with the unbiased `var_sum / (n - 1)`, and for `n > 1`
these divisors give different values whenever `var_sum ≠ 0`. -/
theorem biased_unbiased_split (vt : ℚ → ℚ → ℚ) (momentum eps : ℚ)
    (chan : List ℚ) (v n : ℚ) (hn : 1 < n)
    (hv : (chan.map fun i =>
        (i - chan.sum / n) * (i - chan.sum / n)).sum ≠ 0) :
    (batch_norm_cpu_update_stats_channel vt momentum eps n chan
        none (some v)).2.1
      = vt ((chan.map fun i =>
          (i - chan.sum / n) * (i - chan.sum / n)).sum / n) eps ∧
    (batch_norm_cpu_update_stats_channel vt momentum eps n chan
        none (some v)).2.2.2
      = some (momentum * ((chan.map fun i =>
            (i - chan.sum / n) * (i - chan.sum / n)).sum / (n - 1)) +
          (1 - momentum) * v) ∧
    (chan.map fun i => (i - chan.sum / n) * (i - chan.sum / n)).sum / n
      ≠ (chan.map fun i =>
          (i - chan.sum / n) * (i - chan.sum / n)).sum / (n - 1) := by
  refine ⟨rfl, rfl, ?_⟩
  set S := (chan.map fun i => (i - chan.sum / n) * (i - chan.sum / n)).sum
  have hn0 : n ≠ 0 := by intro h; rw [h] at hn; norm_num at hn
  have hn1 : n - 1 ≠ 0 := by intro h; have : n = 1 := by linarith
                             rw [this] at hn; norm_num at hn
  intro heq
  rw [div_eq_div_iff hn0 hn1] at heq
  have h3 : S * (n - 1) - S * n = -S := by ring
  have : S = 0 := by linarith
  exact hv this

/-- Witness for C2 at `chan = [0, 2]`, `n = 2`, `var_sum = 2`. -/
theorem biased_unbiased_split_w :
    (batch_norm_cpu_update_stats_channel Var 0 0 2 [0, 2]
        none (some 0)).2.1
      = Var ((([0, 2] : List ℚ).map fun i =>
          (i - ([0, 2] : List ℚ).sum / 2) *
            (i - ([0, 2] : List ℚ).sum / 2)).sum / 2) 0 ∧
    (batch_norm_cpu_update_stats_channel Var 0 0 2 [0, 2]
        none (some 0)).2.2.2
      = some (0 * ((([0, 2] : List ℚ).map fun i =>
            (i - ([0, 2] : List ℚ).sum / 2) *
              (i - ([0, 2] : List ℚ).sum / 2)).sum / (2 - 1)) +
          (1 - 0) * 0) ∧
    (([0, 2] : List ℚ).map fun i =>
        (i - ([0, 2] : List ℚ).sum / 2) *
          (i - ([0, 2] : List ℚ).sum / 2)).sum / 2
      ≠ (([0, 2] : List ℚ).map fun i =>
          (i - ([0, 2] : List ℚ).sum / 2) *
            (i - ([0, 2] : List ℚ).sum / 2)).sum / (2 - 1) :=
  biased_unbiased_split Var 0 0 [0, 2] 0 2 (by norm_num) (by norm_num)

/-- C3: when the running statistics are present, each channel's running mean is
updated in place to `momentum * batchMean + (1 - momentum) * runningMean` (and
the running variance is blended the same way with the unbiased variance); with
momentum 0.1, initial running mean `[0]` and a batch whose mean is `[4]`, the
updated running mean is `[0.4]`. -/
theorem running_stat_blend (vt : ℚ → ℚ → ℚ) (momentum eps n : ℚ)
    (chan : List ℚ) (r v : ℚ) :
    (batch_norm_cpu_update_stats_channel vt momentum eps n chan
        (some r) (some v)).2.2.1
      = some (momentum * (chan.sum / n) + (1 - momentum) * r) ∧
    (batch_norm_cpu_update_stats_channel vt momentum eps n chan
        (some r) (some v)).2.2.2
      = some (momentum * ((chan.map fun i =>
            (i - chan.sum / n) * (i - chan.sum / n)).sum / (n - 1)) +
          (1 - momentum) * v) ∧
    (batch_norm_cpu_update_stats Var [[3, 5]] (some [0]) none
        (1 / 10) 0).2.1
      = some [2 / 5] := by
  refine ⟨rfl, rfl, ?_⟩
  simp [batch_norm_cpu_update_stats, batch_norm_cpu_update_stats_channel,
    List.range_succ]
  norm_num

/-- C10: with one element per channel (`n = 1`), the running-variance update
still executes, with the unbiased variance computed as `var_sum / (n - 1)`
whose divisor `1 - 1` is zero: no guard skips the update and no error is
raised. -/
theorem n_one_unbiased_division_by_zero (vt : ℚ → ℚ → ℚ)
    (momentum eps x v : ℚ) :
    (batch_norm_cpu_update_stats_channel vt momentum eps 1 [x]
        none (some v)).2.2.2
      = some (momentum * ((([x] : List ℚ).map fun i =>
            (i - ([x] : List ℚ).sum / 1) *
              (i - ([x] : List ℚ).sum / 1)).sum / ((1 : ℚ) - 1)) +
          (1 - momentum) * v) ∧
    ((1 : ℚ) - 1) = 0 ∧
    (batch_norm_cpu_update_stats_channel vt momentum eps 1 [x]
        none (some v)).2.2.2 ≠ none := by
  refine ⟨rfl, by norm_num, by simp [batch_norm_cpu_update_stats_channel]⟩

end ATenNorm

namespace ATenNorm

/-- Witness for C10 at concrete inputs: the running-variance update is not
skipped. -/
theorem n_one_unbiased_division_by_zero_w :
    (batch_norm_cpu_update_stats_channel Var 0 0 1 [5] none (some 7)).2.2.2
      ≠ none :=
  (n_one_unbiased_division_by_zero Var 0 0 5 7).2.2

/-- Helper: when the running-mean check passes. -/
theorem check_running_mean_none_iff (nf : ℕ) (rm : Option (List ℚ))
    (tr : Bool) :
    check_running_mean nf rm tr = none ↔
      ((∀ t, rm = some t → t.length = nf) ∧ (tr = false → rm.isSome)) := by
  cases rm with
  | none => cases tr <;> simp [check_running_mean]
  | some t => cases tr <;> simp [check_running_mean]

/-- Helper: when the running-var check passes. -/
theorem check_running_var_none_iff (nf : ℕ) (rv : Option (List ℚ))
    (tr : Bool) :
    check_running_var nf rv tr = none ↔
      ((∀ t, rv = some t → t.length = nf) ∧ (tr = false → rv.isSome)) := by
  cases rv with
  | none => cases tr <;> simp [check_running_var]
  | some t => cases tr <;> simp [check_running_var]

/-- Helper: when the weight check passes. -/
theorem check_weight_none_iff (nf : ℕ) (w : Option (List ℚ)) :
    check_weight nf w = none ↔ (∀ t, w = some t → t.length = nf) := by
  cases w with
  | none => simp [check_weight]
  | some t => simp [check_weight]

/-- Helper: when the bias check passes. -/
theorem check_bias_none_iff (nf : ℕ) (b : Option (List ℚ)) :
    check_bias nf b = none ↔ (∀ t, b = some t → t.length = nf) := by
  cases b with
  | none => simp [check_bias]
  | some t => simp [check_bias]

/-- Helper: the whole validation block passes iff every defined optional
parameter has `num_features` elements and, in evaluation mode, both running
statistics are defined. -/
theorem batch_norm_validate_none_iff (nf : ℕ)
    (w b rm rv : Option (List ℚ)) (tr : Bool) :
    batch_norm_validate nf w b rm rv tr = none ↔
      ((∀ t, w = some t → t.length = nf) ∧
       (∀ t, b = some t → t.length = nf) ∧
       (∀ t, rm = some t → t.length = nf) ∧
       (∀ t, rv = some t → t.length = nf) ∧
       (tr = false → rm.isSome ∧ rv.isSome)) := by
  have h : batch_norm_validate nf w b rm rv tr = none ↔
      (check_running_mean nf rm tr = none ∧ check_running_var nf rv tr = none ∧
       check_weight nf w = none ∧ check_bias nf b = none) := by
    unfold batch_norm_validate
    rcases check_running_mean nf rm tr with _ | e <;>
      rcases check_running_var nf rv tr with _ | e2 <;>
      rcases check_weight nf w with _ | e3 <;> simp
  rw [h, check_running_mean_none_iff, check_running_var_none_iff,
    check_weight_none_iff, check_bias_none_iff]
  constructor
  · rintro ⟨⟨hm, hms⟩, ⟨hv, hvs⟩, hw, hb⟩
    exact ⟨hw, hb, hm, hv, fun he => ⟨hms he, hvs he⟩⟩
  · rintro ⟨hw, hb, hm, hv, hs⟩
    exact ⟨⟨hm, fun he => (hs he).1⟩, ⟨hv, fun he => (hs he).2⟩, hw, hb⟩

/-- C7: validation happens once, before any strategy: a call that fails
validation returns the validation error with the running statistics unchanged,
no strategy having run; and the validation passes exactly when every defined
optional parameter has `numChannels = input.shape[1]` elements and, in
evaluation mode, both running statistics are defined. -/
theorem validation_before_strategy (sqrt : ℚ → ℚ)
    (cudnn_fwd miopen_fwd : AccelForward) (input : List (List ℚ))
    (weight bias running_mean running_var : Option (List ℚ))
    (training : Bool) (momentum eps : ℚ) (use_cudnn use_miopen : Bool)
    (e : BNError)
    (h : batch_norm_validate input.length weight bias running_mean running_var
        training = some e) :
    batch_norm_impl_index sqrt cudnn_fwd miopen_fwd input weight bias
        running_mean running_var training momentum eps use_cudnn use_miopen
      = (Except.error e, (running_mean, running_var)) ∧
    (∀ (nf : ℕ) (w b rm rv : Option (List ℚ)) (tr : Bool),
      batch_norm_validate nf w b rm rv tr = none ↔
        ((∀ t, w = some t → t.length = nf) ∧
         (∀ t, b = some t → t.length = nf) ∧
         (∀ t, rm = some t → t.length = nf) ∧
         (∀ t, rv = some t → t.length = nf) ∧
         (tr = false → rm.isSome ∧ rv.isSome))) := by
  constructor
  · unfold batch_norm_impl_index
    rw [h]
  · intro nf w b rm rv tr
    exact batch_norm_validate_none_iff nf w b rm rv tr

/-- Witness for C7: one channel, weight of length 2 ≠ 1; the call fails with
the weight arity error and the running statistics are returned unchanged. -/
theorem validation_before_strategy_w :
    batch_norm_impl_index id
      (fun _ _ _ _ _ _ _ _ => ([], [], [], [], (none, none)))
      (fun _ _ _ _ _ _ _ _ => ([], [], [], [], (none, none)))
      [[1, 2]] (some [1, 2]) none (some [0]) (some [2]) true (1 / 10) 0
      true false
      = (Except.error (BNError.weightSize 1 2), (some [0], some [2])) :=
  (validation_before_strategy id
    (fun _ _ _ _ _ _ _ _ => ([], [], [], [], (none, none)))
    (fun _ _ _ _ _ _ _ _ => ([], [], [], [], (none, none)))
    [[1, 2]] (some [1, 2]) none (some [0]) (some [2]) true (1 / 10) 0
    true false (BNError.weightSize 1 2) rfl).1

/-- C8: the backward dispatcher routes tag 0 to the native backward engine,
tag 1 to the cuDNN backward, tag 2 to the MIOpen backward, and returns the
fatal internal-consistency failure exactly on every other tag. -/
theorem backward_strategy_routing (sqrt : ℚ → ℚ) (cudnn_bwd : CudnnBackward)
    (miopen_bwd : MiopenBackward) (input grad_output : List (List ℚ))
    (weight rm rv sm svt : Option (List ℚ)) (train : Bool) (epsilon : ℚ)
    (output_mask : Bool × Bool × Bool) (rs : List ℚ) :
    batch_norm_impl_index_backward sqrt cudnn_bwd miopen_bwd 0 input
        grad_output weight rm rv sm svt train epsilon output_mask rs
      = some (BackwardKind.native,
          batch_norm_backward_cpu sqrt grad_output input weight rm rv sm svt
            train epsilon output_mask) ∧
    batch_norm_impl_index_backward sqrt cudnn_bwd miopen_bwd 1 input
        grad_output weight rm rv sm svt train epsilon output_mask rs
      = some (BackwardKind.cudnnBackward,
          (some (cudnn_bwd input grad_output weight rm rv sm svt epsilon
            rs).1,
           some (cudnn_bwd input grad_output weight rm rv sm svt epsilon
            rs).2.1,
           some (cudnn_bwd input grad_output weight rm rv sm svt epsilon
            rs).2.2)) ∧
    batch_norm_impl_index_backward sqrt cudnn_bwd miopen_bwd 2 input
        grad_output weight rm rv sm svt train epsilon output_mask rs
      = some (BackwardKind.miopenBackward,
          (some (miopen_bwd input grad_output weight rm rv sm svt
            epsilon).1,
           some (miopen_bwd input grad_output weight rm rv sm svt
            epsilon).2.1,
           some (miopen_bwd input grad_output weight rm rv sm svt
            epsilon).2.2)) ∧
    ∀ i : ℤ,
      batch_norm_impl_index_backward sqrt cudnn_bwd miopen_bwd i input
          grad_output weight rm rv sm svt train epsilon output_mask rs = none
        ↔ (i ≠ 0 ∧ i ≠ 1 ∧ i ≠ 2) := by
  refine ⟨by simp [batch_norm_impl_index_backward],
    by simp [batch_norm_impl_index_backward],
    by simp [batch_norm_impl_index_backward], ?_⟩
  intro i
  by_cases h0 : i = 0
  · simp [batch_norm_impl_index_backward, h0]
  · by_cases h1 : i = 1
    · simp [batch_norm_impl_index_backward, h1]
    · by_cases h2 : i = 2
      · simp [batch_norm_impl_index_backward, h2]
      · simp [batch_norm_impl_index_backward, h0, h1, h2]

/-- Witness for C8: tag 3 is rejected. -/
theorem backward_strategy_routing_w :
    batch_norm_impl_index_backward id
      (fun _ _ _ _ _ _ _ _ _ => ([], [], []))
      (fun _ _ _ _ _ _ _ _ => ([], [], []))
      3 [] [] none none none none none true 0 (true, true, true) [] = none :=
  ((backward_strategy_routing id
      (fun _ _ _ _ _ _ _ _ _ => ([], [], []))
      (fun _ _ _ _ _ _ _ _ => ([], [], []))
      [] [] none none none none none true 0
      (true, true, true) []).2.2.2 3).mpr (by norm_num)

/-- C9: the renorm meta function accepts exactly when `p` is real and
positive, `maxnorm` is real and nonnegative, and the input has at least two
axes, in which case the output shape is the input shape; every success
returns the input shape. -/
theorem renorm_meta_validation (self_sizes : List ℕ) (p : Scalar) (dim : ℤ)
    (maxnorm : Scalar) :
    (renorm_meta self_sizes p dim maxnorm = Except.ok self_sizes ↔
      (p.isComplex = false ∧ 0 < p.val ∧ maxnorm.isComplex = false ∧
        0 ≤ maxnorm.val ∧ 1 < self_sizes.length)) ∧
    (∀ out, renorm_meta self_sizes p dim maxnorm = Except.ok out →
      out = self_sizes) := by
  unfold renorm_meta
  constructor
  · split_ifs with h1 h2 h3 h4 h5 <;> simp_all
  · intro out
    split_ifs <;> intro h <;> simp_all

/-- Witness for C9: a rank-2 input with `p = 2`, `maxnorm = 1` is accepted and
keeps its shape. -/
theorem renorm_meta_validation_w :
    renorm_meta [2, 3] ⟨false, 2⟩ 0 ⟨false, 1⟩ = Except.ok [2, 3] :=
  (renorm_meta_validation [2, 3] ⟨false, 2⟩ 0 ⟨false, 1⟩).1.mpr
    (by norm_num)

end ATenNorm
